import Mathlib

/-!
Verification of the JSON-backed Minecraft server registry
(`script/json_operate.py`) and the `mc` command resolution logic
(`main.py`) of the `astrbot_mcgetter` plugin.

Python dictionaries are modelled as insertion-ordered association lists
`List (String × α)`; `d[k] = v` replaces the value at the first entry
whose key is `k` (keeping its position) or appends a new entry at the
end, `del d[k]` removes the entry, `k in d` is key membership, and
iteration follows list order.  Genuine dictionaries never contain a key
twice; theorems that need this assume `keysUnique`.
-/

/-- Value of `d.get(k)` / `d[k]`: the first entry with key `k`. -/
def lookupKey {α : Type} (l : List (String × α)) (k : String) : Option α :=
  (l.find? (fun p => p.1 == k)).map (fun p => p.2)

/-- Python `k in d`. -/
def hasKey {α : Type} (l : List (String × α)) (k : String) : Bool :=
  l.any (fun p => p.1 == k)

/-- Python `d[k] = v`: replace in place or append at the end. -/
def dinsert {α : Type} (k : String) (v : α) : List (String × α) → List (String × α)
  | [] => [(k, v)]
  | p :: rest => if p.1 == k then (k, v) :: rest else p :: dinsert k v rest

/-- Python `del d[k]`: remove the entry with key `k`. -/
def derase {α : Type} (k : String) : List (String × α) → List (String × α)
  | [] => []
  | p :: rest => if p.1 == k then rest else p :: derase k rest

/-- The keys of the dictionary are pairwise distinct (true of every real
Python dictionary). -/
def keysUnique {α : Type} (l : List (String × α)) : Prop :=
  (l.map Prod.fst).Nodup

/-! ### Decimal rendering: the embedding of Python `str` on integers -/

/-- Decimal digit character, `chr(48 + d)`. -/
def digitChar (d : Nat) : Char := Char.ofNat (48 + d)

/-- Digits of `n` in base 10, most significant first (fuel-guarded so
that the kernel can evaluate it). -/
def decDigitsAux : Nat → Nat → List Char
  | 0, _ => []
  | fuel + 1, n =>
    if n < 10 then [digitChar n]
    else decDigitsAux fuel (n / 10) ++ [digitChar (n % 10)]

/-- Decimal digit list of a natural number. -/
def decDigits (n : Nat) : List Char := decDigitsAux (n + 1) n

/-- Embedding of Python `str` on a natural number. -/
def pyStrNat (n : Nat) : String := String.mk (decDigits n)

/-- Embedding of Python `str` on an integer. -/
def pyStr (i : Int) : String :=
  if i < 0 then String.mk ('-' :: decDigits (-i).toNat) else pyStrNat i.toNat

/-- Decoder used only to prove that decimal rendering is injective. -/
def decValue (l : List Char) : Nat :=
  l.foldl (fun a c => a * 10 + (c.toNat - 48)) 0

/-! ### Data model (`script/json_operate.py`) -/

/-- A server record.  Records written by `add_data` have every field;
records created by `migrate_old_format` have only `id`, `name` and
`host` — the remaining fields are `none` (absent).  `none` also stands
for a stored JSON `null`: the code never distinguishes an absent key
from a `null` value for these fields (it reads them with `.get`). -/
structure Server where
  id : Option Int
  name : String
  host : String
  created_time : Option Int
  last_success_time : Option Int
  last_failed_time : Option Int
  failed_count : Option Int
  deriving DecidableEq, Repr

/-- A well-formed per-group configuration document
`{version, next_id, servers, last_cleanup}` as the CRUD helpers see it
after `read_json`. -/
structure Config where
  version : String
  next_id : Int
  servers : List (String × Server)
  last_cleanup : Option Int
  deriving DecidableEq, Repr

def CURRENT_VERSION : String := "2.1"

def AUTO_CLEANUP_DAYS : Int := 10

/-- A parsed JSON value, restricted to the shapes the registry code
inspects: `is_old_format` and `migrate_old_format` only ask whether a
top-level value is a dict carrying both a `name` and a `host` key
(`serverObj`); the `servers` value is a dict keyed by ids (`serversObj`),
which does not itself have `name`/`host` keys; every other dict is
`otherObj`. -/
inductive JVal where
  | null
  | int (i : Int)
  | str (s : String)
  | serverObj (s : Server)
  | serversObj (m : List (String × Server))
  | otherObj
  deriving DecidableEq, Repr

/-- Whether a JSON value is a dict with both `name` and `host` keys. -/
def isRecordDict : JVal → Bool
  | .serverObj _ => true
  | _ => false

/-- `is_old_format(data)`. -/
def is_old_format (d : List (String × JVal)) : Bool :=
  if d.isEmpty then false
  else if hasKey d "version" then false
  else d.any (fun p => isRecordDict p.2)

/-- The record `{"id": next_id, "name": ..., "host": ...}` written by
`migrate_old_format`. -/
def mkMigrated (nid : Nat) (s : Server) : Server :=
  { id := some (nid : Int), name := s.name, host := s.host,
    created_time := none, last_success_time := none,
    last_failed_time := none, failed_count := none }

/-- The loop of `migrate_old_format`: walks `data.items()`, assigning
`str(next_id)` keys into the servers dict (which, because
`DEFAULT_CONFIG.copy()` is shallow, is the module-level
`DEFAULT_CONFIG["servers"]` object, passed here as `acc`). -/
def migrateLoop (acc : List (String × Server)) (nid : Nat) :
    List (String × JVal) → List (String × Server) × Nat
  | [] => (acc, nid)
  | p :: rest =>
    match p.2 with
    | .serverObj s => migrateLoop (dinsert (pyStrNat nid) (mkMigrated nid s) acc) (nid + 1) rest
    | _ => migrateLoop acc nid rest

/-- `migrate_old_format(data)`.  The first component is the returned
document (`DEFAULT_CONFIG.copy()` with `next_id` rebound and the four
keys in template order); the second component is the new contents of the
module-level `DEFAULT_CONFIG["servers"]` dict, which the shallow copy
aliases. -/
def migrate_old_format (st : List (String × Server)) (d : List (String × JVal)) :
    List (String × JVal) × List (String × Server) :=
  let r := migrateLoop st 1 d
  ([("version", JVal.str CURRENT_VERSION), ("next_id", JVal.int (r.2 : Int)),
    ("servers", JVal.serversObj r.1), ("last_cleanup", JVal.null)], r.1)

/-- The `DEFAULT_CONFIG` document, whose `servers` value is the
module-level dict `st`. -/
def defaultDoc (st : List (String × Server)) : List (String × JVal) :=
  [("version", JVal.str CURRENT_VERSION), ("next_id", JVal.int 1),
   ("servers", JVal.serversObj st), ("last_cleanup", JVal.null)]

/-- One `if key not in data: data[key] = default` block of `read_json`. -/
def ensureKey (k : String) (v : JVal) (d : List (String × JVal)) : List (String × JVal) :=
  if hasKey d k then d else dinsert k v d

/-- The key-completion block of `read_json`: inserts `version`,
`next_id` and `servers` when absent (a fresh empty dict for `servers`),
in that order. -/
def ensure_fields (d : List (String × JVal)) : List (String × JVal) :=
  ensureKey "servers" (JVal.serversObj [])
    (ensureKey "next_id" (JVal.int 1)
      (ensureKey "version" (JVal.str CURRENT_VERSION) d))

/-- What a call to `read_json` finds: no file, an unreadable file, an
unparsable file, or a parsed JSON document. -/
inductive ReadInput where
  | missing
  | ioError
  | parseError
  | parsed (d : List (String × JVal))
  deriving DecidableEq, Repr

/-- The exceptions `read_json` re-raises. -/
inductive JErr where
  | ioError
  | decodeError
  deriving DecidableEq, Repr

/-- `read_json(json_path)`.  `st` is the current contents of the
module-level `DEFAULT_CONFIG["servers"]` dict; the second component is
its contents afterwards (migration writes through the shallow copy). -/
def read_json (st : List (String × Server)) (inp : ReadInput) :
    Except JErr (List (String × JVal)) × List (String × Server) :=
  match inp with
  | .missing => (.ok (defaultDoc st), st)
  | .ioError => (.error .ioError, st)
  | .parseError => (.error .decodeError, st)
  | .parsed d =>
    if is_old_format d then
      let r := migrate_old_format st d
      (.ok (ensure_fields r.1), r.2)
    else
      (.ok (ensure_fields d), st)

/-- A sequence of `read_json` calls, tracking only the module-level
`DEFAULT_CONFIG["servers"]` dict they leave behind. -/
def runReads (st : List (String × Server)) (inps : List ReadInput) :
    List (String × Server) :=
  inps.foldl (fun s i => (read_json s i).2) st

/-! ### CRUD operations (`script/json_operate.py`)
Each operation takes the outcome of its `read_json` call (`Except JErr
Config`, using the well-formed view of the document) plus a `writeOk`
flag standing for whether the `write_json` call succeeds.  Each returns
its Python return value together with the effect on the stored file. -/

/-- Effect of an operation on the stored JSON file. -/
inductive WriteEffect where
  | unchanged
  | written (c : Config)
  | failed
  deriving DecidableEq, Repr

/-- `get_server_by_name(data, name)`: first server whose `name` field
equals `name`, in dict iteration order. -/
def get_server_by_name (servers : List (String × Server)) (name : String) :
    Option (String × Server) :=
  servers.find? (fun p => p.2.name == name)

/-- The shared id-then-name resolution block of `update_data`,
`update_server_status` and `get_server_info`. -/
def resolveServer (servers : List (String × Server)) (identifier : String) :
    Option (String × Server) :=
  match servers.find? (fun p => p.1 == identifier) with
  | some p => some p
  | none => get_server_by_name servers identifier

/-- The record written by `add_data`: `int(server_id)` is `next_id`
itself, `last_failed_time` is JSON `null`. -/
def newServer (nid : Int) (name host : String) (now : Int) : Server :=
  { id := some nid, name := name, host := host, created_time := some now,
    last_success_time := some now, last_failed_time := none, failed_count := some 0 }

/-- `add_data(json_path, name, host)`. -/
def add_data (readRes : Except JErr Config) (name host : String) (now : Int)
    (writeOk : Bool) : Bool × WriteEffect :=
  match readRes with
  | .error _ => (false, .unchanged)
  | .ok data =>
    match get_server_by_name data.servers name with
    | some _ => (false, .unchanged)
    | none =>
      let server_id := pyStr data.next_id
      let record := newServer data.next_id name host now
      if writeOk then
        (true, .written { data with
                          next_id := data.next_id + 1
                          servers := dinsert server_id record data.servers })
      else (false, .failed)

/-- `del_data(json_path, identifier)`. -/
def del_data (readRes : Except JErr Config) (identifier : String)
    (writeOk : Bool) : Bool × WriteEffect :=
  match readRes with
  | .error _ => (false, .unchanged)
  | .ok data =>
    if hasKey data.servers identifier then
      if writeOk then
        (true, .written { data with servers := derase identifier data.servers })
      else (false, .failed)
    else
      match get_server_by_name data.servers identifier with
      | some q =>
        if writeOk then
          (true, .written { data with servers := derase q.1 data.servers })
        else (false, .failed)
      | none => (false, .unchanged)

/-- `update_data(json_path, identifier, new_name, new_host)`.  The
conflict test mirrors `if new_name and new_name != server_info["name"]`
(Python truthiness: `None` and `""` both skip the check) followed by
`if existing_server and existing_server[0] != server_id`. -/
def update_data (readRes : Except JErr Config) (identifier : String)
    (new_name new_host : Option String) (writeOk : Bool) : Bool × WriteEffect :=
  match readRes with
  | .error _ => (false, .unchanged)
  | .ok data =>
    match resolveServer data.servers identifier with
    | none => (false, .unchanged)
    | some (server_id, server_info) =>
      let conflict : Bool :=
        match new_name with
        | none => false
        | some nn =>
          if nn = "" then false
          else if nn = server_info.name then false
          else
            match get_server_by_name data.servers nn with
            | some q => decide (q.1 ≠ server_id)
            | none => false
      if conflict then (false, .unchanged)
      else
        let info2 := { server_info with
                       name := new_name.getD server_info.name
                       host := new_host.getD server_info.host }
        if writeOk then
          (true, .written { data with servers := dinsert server_id info2 data.servers })
        else (false, .failed)

/-- `get_all_servers(json_path)`. -/
def get_all_servers (readRes : Except JErr Config) : List (String × Server) :=
  match readRes with
  | .error _ => []
  | .ok data => data.servers

/-- The mutation `update_server_status` applies to the matched record. -/
def statusUpdate (success : Bool) (now : Int) (info : Server) : Server :=
  if success then
    { info with last_success_time := some now, failed_count := some 0 }
  else
    { info with
      last_failed_time := some now
      failed_count := some (info.failed_count.getD 0 + 1) }

/-- `update_server_status(json_path, identifier, success)`. -/
def update_server_status (readRes : Except JErr Config) (identifier : String)
    (success : Bool) (now : Int) (writeOk : Bool) : Bool × WriteEffect :=
  match readRes with
  | .error _ => (false, .unchanged)
  | .ok data =>
    match resolveServer data.servers identifier with
    | none => (false, .unchanged)
    | some (server_id, server_info) =>
      if writeOk then
        (true, .written { data with
          servers := dinsert server_id (statusUpdate success now server_info) data.servers })
      else (false, .failed)

/-- A deleted-server summary returned by `auto_cleanup_servers` (note
its `id` field is the string dict key, unlike stored records). -/
structure DelRec where
  id : String
  name : String
  host : String
  last_success_time : Option Int
  failed_count : Int
  deriving DecidableEq, Repr

/-- The summary dict appended to `deleted_servers`. -/
def cleanupSummary (p : String × Server) : DelRec :=
  { id := p.1, name := p.2.name, host := p.2.host,
    last_success_time := p.2.last_success_time,
    failed_count := p.2.failed_count.getD 0 }

/-- `auto_cleanup_servers(json_path)`.  The first pass collects servers
whose `last_success_time` (default 0) is before the cutoff; the second
pass deletes them and builds the summaries. -/
def auto_cleanup_servers (readRes : Except JErr Config) (now : Int)
    (writeOk : Bool) : List DelRec × WriteEffect :=
  match readRes with
  | .error _ => ([], .unchanged)
  | .ok data =>
    if data.servers.isEmpty then ([], .unchanged)
    else
      let cutoff := now - AUTO_CLEANUP_DAYS * 24 * 3600
      let servers_to_delete :=
        data.servers.filter (fun p => decide (p.2.last_success_time.getD 0 < cutoff))
      let deleted_servers := servers_to_delete.map cleanupSummary
      let servers2 := servers_to_delete.foldl (fun s p => derase p.1 s) data.servers
      if deleted_servers.isEmpty then (deleted_servers, .unchanged)
      else if writeOk then
        (deleted_servers, .written { data with servers := servers2, last_cleanup := some now })
      else ([], .failed)

/-- `get_server_info(json_path, identifier)`. -/
def get_server_info (readRes : Except JErr Config) (identifier : String) :
    Option Server :=
  match readRes with
  | .error _ => none
  | .ok data =>
    match data.servers.find? (fun p => p.1 == identifier) with
    | some p => some p.2
    | none => (get_server_by_name data.servers identifier).map (fun q => q.2)

/-! ### The `mc` command (`main.py`, `mcgetter`) -/

/-- The reply of the `mc` command once the argument is resolved. -/
inductive McReply where
  | image (img : String)
  | noInfo
  deriving DecidableEq, Repr

/-- The resolution loop of `mcgetter`: the first stored server whose
name or id key equals the argument supplies the queried host; otherwise
the argument itself is the host. -/
def mcResolveHost (servers : List (String × Server)) (arg : String) : String :=
  match servers.find? (fun p => p.2.name == arg || p.1 == arg) with
  | some p => p.2.host
  | none => arg

/-- `mcgetter`: query the resolved host (`fetch` abstracts
`get_server_status` plus image rendering; `none` covers an unreachable
server or a rendering failure) and reply with the image or the generic
no-available-server-information message. -/
def mcgetter (servers : List (String × Server)) (arg : String)
    (fetch : String → Option String) : McReply :=
  match fetch (mcResolveHost servers arg) with
  | some img => .image img
  | none => .noInfo

/-! ### Migration enumeration -/

/-- The record-shaped values among `data.items()`, in iteration order:
exactly the entries `migrate_old_format` migrates. -/
def recordsOf (d : List (String × JVal)) : List Server :=
  d.filterMap (fun p =>
    match p.2 with
    | .serverObj s => some s
    | _ => none)

/-- Consecutive numbering of migrated records starting at `nid`. -/
def numberFrom (nid : Nat) : List Server → List (String × Server)
  | [] => []
  | s :: rest => (pyStrNat nid, mkMigrated nid s) :: numberFrom (nid + 1) rest

/-- The server names of the group are pairwise distinct (the invariant
the spec states for every group). -/
def namesUnique (l : List (String × Server)) : Prop :=
  (l.map (fun p => p.2.name)).Nodup

instance {α : Type} [DecidableEq α] (l : List (String × α)) : Decidable (keysUnique l) :=
  inferInstanceAs (Decidable (List.Nodup _))

instance (l : List (String × Server)) : Decidable (namesUnique l) :=
  inferInstanceAs (Decidable (List.Nodup _))

instance {ε α : Type} [DecidableEq ε] [DecidableEq α] : DecidableEq (Except ε α) := fun a b =>
  match a, b with
  | .ok x, .ok y =>
    match decEq x y with
    | isTrue h => isTrue (by rw [h])
    | isFalse h => isFalse (fun he => h (by cases he; rfl))
  | .error x, .error y =>
    match decEq x y with
    | isTrue h => isTrue (by rw [h])
    | isFalse h => isFalse (fun he => h (by cases he; rfl))
  | .ok _, .error _ => isFalse (fun he => by cases he)
  | .error _, .ok _ => isFalse (fun he => by cases he)

/-- The single record of an old-format file used to witness the
shallow-copy aliasing of `DEFAULT_CONFIG`. -/
def oldServerA : Server :=
  { id := none, name := "a", host := "h", created_time := none,
    last_success_time := none, last_failed_time := none, failed_count := none }

/-- An old-format document `{"a": {"name": "a", "host": "h"}}`. -/
def oldFormatDoc : List (String × JVal) := [("a", JVal.serverObj oldServerA)]

/-- The document `read_json` produces for a parsed empty JSON object. -/
def emptyObjOut : List (String × JVal) :=
  [("version", JVal.str "2.1"), ("next_id", JVal.int 1), ("servers", JVal.serversObj [])]

/-- Base configuration for the C1 witness. -/
def w1cfg : Config :=
  { version := "2.1", next_id := 1, servers := [], last_cleanup := none }

/-- Old-format document for the C1 witness: one record-shaped value and
one non-record value. -/
def w1doc : List (String × JVal) :=
  [("x", JVal.serverObj
      { id := none
        name := "x"
        host := "hx"
        created_time := none
        last_success_time := none
        last_failed_time := none
        failed_count := none }),
   ("y", JVal.null)]

/-- Server with the empty name used for the C2 counterexample. -/
def c2srvA : Server :=
  { id := some 1
    name := ""
    host := "h1"
    created_time := some 0
    last_success_time := some 0
    last_failed_time := none
    failed_count := some 0 }

/-- Server named `"x"` used for the C2 counterexample. -/
def c2srvB : Server :=
  { id := some 2
    name := "x"
    host := "h2"
    created_time := some 0
    last_success_time := some 0
    last_failed_time := none
    failed_count := some 0 }

/-- Two-server configuration with unique names `""` and `"x"`. -/
def c2cfg : Config :=
  { version := "2.1", next_id := 3, servers := [("1", c2srvA), ("2", c2srvB)],
    last_cleanup := none }

/-- First server of the C3 witness configuration. -/
def c3srvA : Server :=
  { id := some 1
    name := "a"
    host := "ha"
    created_time := some 0
    last_success_time := some 0
    last_failed_time := none
    failed_count := some 0 }

/-- Second server of the C3 witness configuration. -/
def c3srvB : Server :=
  { id := some 2
    name := "b"
    host := "hb"
    created_time := some 0
    last_success_time := some 0
    last_failed_time := none
    failed_count := some 0 }

/-- Configuration for the C3 witness: two servers `a` and `b`. -/
def c3cfg : Config :=
  { version := "2.1", next_id := 3, servers := [("1", c3srvA), ("2", c3srvB)],
    last_cleanup := none }

/-- Stale server (old `last_success_time`) for the C5 witness. -/
def c5srvOld : Server :=
  { id := some 1
    name := "old"
    host := "hold"
    created_time := some 0
    last_success_time := some 0
    last_failed_time := none
    failed_count := some 3 }

/-- Fresh server for the C5 witness. -/
def c5srvNew : Server :=
  { id := some 2
    name := "new"
    host := "hnew"
    created_time := some 0
    last_success_time := some 2000000
    last_failed_time := none
    failed_count := some 0 }

/-- Configuration for the C5 witness. -/
def c5cfg : Config :=
  { version := "2.1", next_id := 3, servers := [("1", c5srvOld), ("2", c5srvNew)],
    last_cleanup := none }

/-- Server for the C7 witness. -/
def c7srv : Server :=
  { id := some 1
    name := "a"
    host := "ha"
    created_time := some 10
    last_success_time := some 10
    last_failed_time := none
    failed_count := some 2 }

/-- Configuration for the C7 witness. -/
def c7cfg : Config :=
  { version := "2.1", next_id := 2, servers := [("1", c7srv)], last_cleanup := none }

/-- Server stored under id key `"1"` for the C10 witness. -/
def c10srvA : Server :=
  { id := some 1
    name := "b"
    host := "h1"
    created_time := some 0
    last_success_time := some 0
    last_failed_time := none
    failed_count := some 0 }

/-- Server whose name is `"1"` for the C10 witness. -/
def c10srvB : Server :=
  { id := some 2
    name := "1"
    host := "h2"
    created_time := some 0
    last_success_time := some 0
    last_failed_time := none
    failed_count := some 0 }

/-- Configuration where `"1"` is both an id key and another server's
name. -/
def c10cfg : Config :=
  { version := "2.1", next_id := 3, servers := [("1", c10srvA), ("2", c10srvB)],
    last_cleanup := none }

/-- Single-key parsed document for the C8 witness. -/
def w8doc : List (String × JVal) := [("k", JVal.null)]

/-- Document `read_json` returns for `w8doc`. -/
def w8out : List (String × JVal) :=
  [("k", JVal.null), ("version", JVal.str "2.1"), ("next_id", JVal.int 1),
   ("servers", JVal.serversObj [])]

/-- Server for the C9 witness. -/
def c9srv : Server :=
  { id := some 1
    name := "a"
    host := "ha"
    created_time := some 0
    last_success_time := some 0
    last_failed_time := none
    failed_count := some 0 }

/-- Stored servers for the C9 witness. -/
def c9servers : List (String × Server) := [("1", c9srv)]

/-- Fetch function for the C9 witness: only host `"ha"` is reachable. -/
def c9fetch : String → Option String := fun h => if h = "ha" then some "img" else none

theorem digitChar_toNat {d : Nat} (h : d < 10) : (digitChar d).toNat = 48 + d := by
  interval_cases d <;> decide

theorem decDigitsAux_foldl (fuel : Nat) : ∀ n a, n < fuel →
    (decDigitsAux fuel n).foldl (fun a c => a * 10 + (c.toNat - 48)) a =
      a * 10 ^ (decDigitsAux fuel n).length + n := by
  induction fuel with
  | zero => intro n a h; omega
  | succ fuel ih =>
    intro n a h
    by_cases h10 : n < 10
    · simp [decDigitsAux, h10, digitChar_toNat h10]
    · have hdiv : n / 10 < fuel := by
        have h1 : n / 10 < n := Nat.div_lt_self (by omega) (by omega)
        omega
      have hmod : n % 10 < 10 := Nat.mod_lt _ (by omega)
      simp only [decDigitsAux, if_neg h10, List.foldl_append, List.length_append,
        List.foldl_cons, List.foldl_nil, List.length_cons, List.length_nil,
        ih (n / 10) a hdiv, digitChar_toNat hmod]
      have : a * 10 ^ ((decDigitsAux fuel (n / 10)).length + (0 + 1)) =
          a * 10 ^ (decDigitsAux fuel (n / 10)).length * 10 := by ring
      rw [this]
      omega

theorem decValue_decDigits (n : Nat) : decValue (decDigits n) = n := by
  have := decDigitsAux_foldl (n + 1) n 0 (by omega)
  simpa [decValue, decDigits] using this

theorem pyStrNat_injective : Function.Injective pyStrNat := by
  intro m n h
  have hdata : decDigits m = decDigits n := congrArg String.data h
  have := congrArg decValue hdata
  rwa [decValue_decDigits, decValue_decDigits] at this

/-! ### Dictionary lemmas -/

theorem lookupKey_dinsert_self {α : Type} (l : List (String × α)) (k : String) (v : α) :
    lookupKey (dinsert k v l) k = some v := by
  induction l with
  | nil => simp [dinsert, lookupKey]
  | cons p rest ih =>
    by_cases h : p.1 = k
    · simp [dinsert, h, lookupKey]
    · simpa [dinsert, h, lookupKey, List.find?_cons] using ih

theorem lookupKey_dinsert_ne {α : Type} (l : List (String × α)) (k k' : String) (v : α)
    (h : k' ≠ k) : lookupKey (dinsert k v l) k' = lookupKey l k' := by
  induction l with
  | nil => simp [dinsert, lookupKey, List.find?_cons, h, Ne.symm h]
  | cons p rest ih =>
    by_cases hp : p.1 = k
    · subst hp
      simp [dinsert, lookupKey, List.find?_cons, h, Ne.symm h]
    · by_cases hp' : p.1 = k'
      · simp [dinsert, hp, lookupKey, List.find?_cons, hp', h, Ne.symm h]
      · simpa [dinsert, hp, lookupKey, List.find?_cons, hp'] using ih

theorem hasKey_eq_isSome_lookupKey {α : Type} (l : List (String × α)) (k : String) :
    hasKey l k = (lookupKey l k).isSome := by
  induction l with
  | nil => simp [hasKey, lookupKey]
  | cons p rest ih =>
    by_cases hp : p.1 = k
    · simp [hasKey, lookupKey, List.find?_cons, hp]
    · have hb : (p.1 == k) = false := by simpa using hp
      simpa [hasKey, lookupKey, List.find?_cons, List.any_cons, hb] using ih

theorem hasKey_dinsert_self {α : Type} (l : List (String × α)) (k : String) (v : α) :
    hasKey (dinsert k v l) k = true := by
  rw [hasKey_eq_isSome_lookupKey, lookupKey_dinsert_self]
  rfl

theorem hasKey_dinsert_of_hasKey {α : Type} (l : List (String × α)) (k k' : String) (v : α)
    (h : hasKey l k' = true) : hasKey (dinsert k v l) k' = true := by
  by_cases hk : k' = k
  · subst hk
    exact hasKey_dinsert_self l k' v
  · rw [hasKey_eq_isSome_lookupKey, lookupKey_dinsert_ne l k k' v hk]
    rw [hasKey_eq_isSome_lookupKey] at h
    exact h

theorem lookupKey_derase_ne {α : Type} (l : List (String × α)) (k k' : String)
    (h : k' ≠ k) : lookupKey (derase k l) k' = lookupKey l k' := by
  induction l with
  | nil => simp [derase]
  | cons p rest ih =>
    by_cases hp : p.1 = k
    · subst hp
      simp [derase, lookupKey, List.find?_cons, Ne.symm h]
    · by_cases hp' : p.1 = k'
      · simp [derase, hp, lookupKey, List.find?_cons, hp', beq_iff_eq, h]
      · simpa [derase, hp, lookupKey, List.find?_cons, hp'] using ih

theorem lookupKey_derase_self {α : Type} (l : List (String × α)) (k : String)
    (hk : keysUnique l) : lookupKey (derase k l) k = none := by
  induction l with
  | nil => simp [derase, lookupKey]
  | cons p rest ih =>
    have hk' : keysUnique rest := (List.nodup_cons.mp hk).2
    by_cases hp : p.1 = k
    · subst hp
      have hnot : p.1 ∉ rest.map Prod.fst := (List.nodup_cons.mp hk).1
      simp only [derase, beq_self_eq_true, if_pos rfl]
      rcases hfind : rest.find? (fun q => q.1 == p.1) with _ | q
      · simp [lookupKey, hfind]
      · exfalso
        have hq : q.1 = p.1 := by simpa using List.find?_some hfind
        have hmem : q ∈ rest := List.mem_of_find?_eq_some hfind
        exact hnot (List.mem_map.mpr ⟨q, hmem, hq⟩)
    · simp only [derase]
      rw [if_neg (by simpa using hp)]
      simpa [lookupKey, List.find?_cons, hp] using ih hk'

theorem dinsert_eq_append_of_fresh {α : Type} (l : List (String × α)) (k : String) (v : α)
    (h : ∀ p ∈ l, p.1 ≠ k) : dinsert k v l = l ++ [(k, v)] := by
  induction l with
  | nil => simp [dinsert]
  | cons p rest ih =>
    have hp : p.1 ≠ k := h p (by simp)
    simp [dinsert, hp, ih (fun q hq => h q (by simp [hq]))]

theorem migrateLoop_eq (d : List (String × JVal)) :
    ∀ (acc : List (String × Server)) (nid : Nat),
      (∀ p ∈ acc, ∃ j, j < nid ∧ p.1 = pyStrNat j) →
      migrateLoop acc nid d = (acc ++ numberFrom nid (recordsOf d), nid + (recordsOf d).length) := by
  induction d with
  | nil => intro acc nid _; simp [migrateLoop, recordsOf, numberFrom]
  | cons p rest ih =>
    intro acc nid hacc
    match hp : p.2 with
    | .serverObj s =>
      have hfresh : ∀ q ∈ acc, q.1 ≠ pyStrNat nid := by
        intro q hq hqk
        obtain ⟨j, hjlt, hjeq⟩ := hacc q hq
        have : j = nid := pyStrNat_injective (hjeq ▸ hqk)
        omega
      have hins : dinsert (pyStrNat nid) (mkMigrated nid s) acc =
          acc ++ [(pyStrNat nid, mkMigrated nid s)] :=
        dinsert_eq_append_of_fresh acc (pyStrNat nid) (mkMigrated nid s) hfresh
      have hacc' : ∀ q ∈ acc ++ [(pyStrNat nid, mkMigrated nid s)],
          ∃ j, j < nid + 1 ∧ q.1 = pyStrNat j := by
        intro q hq
        rcases List.mem_append.mp hq with hq | hq
        · obtain ⟨j, hjlt, hjeq⟩ := hacc q hq
          exact ⟨j, by omega, hjeq⟩
        · simp only [List.mem_singleton] at hq
          exact ⟨nid, by omega, by rw [hq]⟩
      simp only [migrateLoop, hp, hins]
      rw [ih _ _ hacc']
      simp [recordsOf, numberFrom, hp, List.append_assoc]
      omega
    | .null => simp only [migrateLoop, hp]; rw [ih _ _ hacc]; simp [recordsOf, hp, numberFrom]
    | .int i => simp only [migrateLoop, hp]; rw [ih _ _ hacc]; simp [recordsOf, hp, numberFrom]
    | .str s => simp only [migrateLoop, hp]; rw [ih _ _ hacc]; simp [recordsOf, hp, numberFrom]
    | .serversObj m => simp only [migrateLoop, hp]; rw [ih _ _ hacc]; simp [recordsOf, hp, numberFrom]
    | .otherObj => simp only [migrateLoop, hp]; rw [ih _ _ hacc]; simp [recordsOf, hp, numberFrom]

/-! ### Lookup and resolution lemmas -/

theorem find?_eq_of_lookupKey {α : Type} {l : List (String × α)} {k : String} {v : α}
    (h : lookupKey l k = some v) : l.find? (fun q => q.1 == k) = some (k, v) := by
  unfold lookupKey at h
  rcases hf : l.find? (fun q => q.1 == k) with _ | p
  · rw [hf] at h
    simp at h
  · rw [hf] at h
    have hv : p.2 = v := by simpa using h
    have hk : p.1 = k := by simpa using List.find?_some hf
    cases p
    simp_all

theorem get_server_by_name_mem {l : List (String × Server)} {n : String}
    {q : String × Server} (h : get_server_by_name l n = some q) :
    q ∈ l ∧ q.2.name = n := by
  refine ⟨List.mem_of_find?_eq_some h, ?_⟩
  simpa using List.find?_some h

theorem get_server_by_name_of_mem {l : List (String × Server)} {n : String}
    {q : String × Server} (hq : q ∈ l) (hn : q.2.name = n) :
    ∃ r, get_server_by_name l n = some r ∧ r ∈ l ∧ r.2.name = n := by
  have hsome : (l.find? (fun p => p.2.name == n)).isSome := by
    rw [List.find?_isSome]
    exact ⟨q, hq, by simpa using hn⟩
  rcases hr : l.find? (fun p => p.2.name == n) with _ | r
  · rw [hr] at hsome
    simp at hsome
  · exact ⟨r, hr, List.mem_of_find?_eq_some hr, by simpa using List.find?_some hr⟩

theorem resolveServer_mem {l : List (String × Server)} {i : String}
    {q : String × Server} (h : resolveServer l i = some q) : q ∈ l := by
  unfold resolveServer at h
  rcases hf : l.find? (fun p => p.1 == i) with _ | p
  · rw [hf] at h
    exact (get_server_by_name_mem h).1
  · rw [hf] at h
    cases h
    exact List.mem_of_find?_eq_some hf

theorem resolveServer_of_lookupKey {l : List (String × Server)} {i : String} {s : Server}
    (h : lookupKey l i = some s) : resolveServer l i = some (i, s) := by
  unfold resolveServer
  rw [find?_eq_of_lookupKey h]

/-! ### Cleanup fold lemmas -/

theorem foldl_derase_cons {α : Type} (x : String × α) :
    ∀ (ks : List (String × α)) (l : List (String × α)), (∀ q ∈ ks, q.1 ≠ x.1) →
      ks.foldl (fun s q => derase q.1 s) (x :: l) =
        x :: ks.foldl (fun s q => derase q.1 s) l := by
  intro ks
  induction ks with
  | nil => intro l _; rfl
  | cons q rest ih =>
    intro l h
    have hq : x.1 ≠ q.1 := Ne.symm (h q (by simp))
    have hstep : derase q.1 (x :: l) = x :: derase q.1 l := by
      simp [derase, hq]
    simp only [List.foldl_cons, hstep]
    exact ih (derase q.1 l) (fun r hr => h r (by simp [hr]))

theorem foldl_derase_filter {α : Type} (P : String × α → Bool) :
    ∀ (l : List (String × α)), keysUnique l →
      (l.filter P).foldl (fun s q => derase q.1 s) l = l.filter (fun p => !P p) := by
  intro l
  induction l with
  | nil => intro _; rfl
  | cons x rest ih =>
    intro hk
    have hk' : keysUnique rest := (List.nodup_cons.mp hk).2
    have hx : x.1 ∉ rest.map Prod.fst := (List.nodup_cons.mp hk).1
    by_cases hP : P x
    · have hdel : derase x.1 (x :: rest) = rest := by simp [derase]
      simp only [List.filter_cons, hP, if_pos, List.foldl_cons, hdel]
      simpa [List.filter_cons, hP] using ih hk'
    · have hks : ∀ q ∈ rest.filter P, q.1 ≠ x.1 := by
        intro q hq he
        exact hx (he ▸ List.mem_map_of_mem Prod.fst (List.mem_of_mem_filter hq))
      have hPx : P x = false := by simpa using hP
      rw [show (x :: rest).filter P = rest.filter P by simp [List.filter_cons, hPx]]
      rw [foldl_derase_cons x (rest.filter P) rest hks, ih hk']
      simp [List.filter_cons, hPx]

/-! ### Claim theorems -/

/-- C6: the CRUD helpers never propagate exceptions: on any internal
failure (a failing `read_json` or a failing `write_json`) `add_data`,
`del_data`, `update_data` and `update_server_status` return `False`,
`get_all_servers` returns an empty mapping, `auto_cleanup_servers`
returns an empty list and `get_server_info` returns `None`; only
`read_json` re-raises, as `IOError` for I/O failures and as
`json.JSONDecodeError` for parse failures. -/
theorem C6_error_swallowing :
    (∀ e name host now w, add_data (.error e) name host now w = (false, .unchanged)) ∧
    (∀ data name host now, (add_data (.ok data) name host now false).1 = false) ∧
    (∀ e i w, del_data (.error e) i w = (false, .unchanged)) ∧
    (∀ data i, (del_data (.ok data) i false).1 = false) ∧
    (∀ e i nn nh w, update_data (.error e) i nn nh w = (false, .unchanged)) ∧
    (∀ data i nn nh, (update_data (.ok data) i nn nh false).1 = false) ∧
    (∀ e i s now w, update_server_status (.error e) i s now w = (false, .unchanged)) ∧
    (∀ data i s now, (update_server_status (.ok data) i s now false).1 = false) ∧
    (∀ e, get_all_servers (.error e) = []) ∧
    (∀ e now w, auto_cleanup_servers (.error e) now w = ([], .unchanged)) ∧
    (∀ data now, (auto_cleanup_servers (.ok data) now false).1 = []) ∧
    (∀ e i, get_server_info (.error e) i = none) ∧
    (∀ st, read_json st .ioError = (.error .ioError, st)) ∧
    (∀ st, read_json st .parseError = (.error .decodeError, st)) := by
  refine ⟨fun _ _ _ _ _ => rfl, ?_, fun _ _ _ => rfl, ?_, fun _ _ _ _ _ => rfl, ?_,
    fun _ _ _ _ _ => rfl, ?_, fun _ => rfl, fun _ _ _ => rfl, ?_, fun _ _ => rfl,
    fun _ => rfl, fun _ => rfl⟩
  · intro data name host now
    rcases hf : get_server_by_name data.servers name with _ | q <;>
      simp [add_data, hf]
  · intro data i
    by_cases hk : hasKey data.servers i
    · simp [del_data, hk]
    · rcases hf : get_server_by_name data.servers i with _ | q <;>
        simp [del_data, hk, hf]
  · intro data i nn nh
    rcases hr : resolveServer data.servers i with _ | q
    · simp [update_data, hr]
    · rcases q with ⟨sid, info⟩
      simp only [update_data, hr]
      split <;> simp
  · intro data i s now
    rcases hr : resolveServer data.servers i with _ | q
    · simp [update_server_status, hr]
    · rcases q with ⟨sid, info⟩
      simp [update_server_status, hr]
  · intro data now
    by_cases he : data.servers.isEmpty
    · simp [auto_cleanup_servers, he]
    · simp only [auto_cleanup_servers, Bool.false_eq_true, if_false]
      rw [if_neg (by simpa using he)]
      split
      · next hdel => simpa using hdel
      · rfl

/-- C9: the `mc` command resolves its argument as name, id, or host —
when a stored server's name or id key equals the argument the query is
issued against that server's stored host, otherwise against the
argument itself; a successful fetch yields an image reply, an
unreachable server the generic no-available-server-information reply. -/
theorem C9_mc_resolution (servers : List (String × Server)) (arg : String)
    (fetch : String → Option String) :
    ((∃ p ∈ servers, p.2.name = arg ∨ p.1 = arg) ↔
      (servers.find? (fun q => q.2.name == arg || q.1 == arg)).isSome) ∧
    (∀ p, servers.find? (fun q => q.2.name == arg || q.1 == arg) = some p →
      mcResolveHost servers arg = p.2.host) ∧
    (servers.find? (fun q => q.2.name == arg || q.1 == arg) = none →
      mcResolveHost servers arg = arg) ∧
    (∀ img, fetch (mcResolveHost servers arg) = some img →
      mcgetter servers arg fetch = .image img) ∧
    (fetch (mcResolveHost servers arg) = none →
      mcgetter servers arg fetch = .noInfo) := by
  refine ⟨?_, ?_, ?_, ?_, ?_⟩
  · rw [List.find?_isSome]
    constructor
    · rintro ⟨p, hp, h | h⟩
      · exact ⟨p, hp, by simp [h]⟩
      · exact ⟨p, hp, by simp [h]⟩
    · rintro ⟨p, hp, h⟩
      rcases (by simpa using h : p.2.name = arg ∨ p.1 = arg) with h1 | h1
      · exact ⟨p, hp, Or.inl h1⟩
      · exact ⟨p, hp, Or.inr h1⟩
  · intro p h
    simp [mcResolveHost, h]
  · intro h
    simp [mcResolveHost, h]
  · intro img h
    simp [mcgetter, h]
  · intro h
    simp [mcgetter, h]

/-- C4 (refuting the claim; the code is at fault): `DEFAULT_CONFIG.copy()`
in `migrate_old_format` is a shallow copy, so the migration writes into
the module-level `DEFAULT_CONFIG["servers"]` dict; after one migration,
`read_json` of a missing file returns a document whose `servers`
mapping contains the migrated record instead of being empty (its
`next_id` is still 1). -/
theorem C4_default_config_polluted :
    runReads [] [ReadInput.parsed oldFormatDoc] = [("1", mkMigrated 1 oldServerA)] ∧
    (read_json (runReads [] [ReadInput.parsed oldFormatDoc]) ReadInput.missing).1 =
      .ok (defaultDoc [("1", mkMigrated 1 oldServerA)]) ∧
    lookupKey (defaultDoc [("1", mkMigrated 1 oldServerA)]) "servers" =
      some (JVal.serversObj [("1", mkMigrated 1 oldServerA)]) ∧
    some (JVal.serversObj [("1", mkMigrated 1 oldServerA)]) ≠
      some (JVal.serversObj []) ∧
    lookupKey (defaultDoc [("1", mkMigrated 1 oldServerA)]) "next_id" =
      some (JVal.int 1) := by
  decide

/-- C8 counterexample: a parsed document with no keys is returned
without a `last_cleanup` key — `read_json` fills in only `version`,
`next_id` and `servers`, so the claim that every missing key of the
four-key shape is filled in fails. -/
theorem C8_counterexample :
    (read_json [] (ReadInput.parsed [])).1 = .ok emptyObjOut ∧
    hasKey emptyObjOut "last_cleanup" = false := by
  decide

/-- Inserting a key makes it present. -/
theorem hasKey_ensureKey_self (k : String) (v : JVal) (d : List (String × JVal)) :
    hasKey (ensureKey k v d) k = true := by
  unfold ensureKey
  split
  · assumption
  · exact hasKey_dinsert_self d k v

/-- Inserting a key keeps every present key present. -/
theorem hasKey_ensureKey_of (k k' : String) (v : JVal) (d : List (String × JVal))
    (h : hasKey d k' = true) : hasKey (ensureKey k v d) k' = true := by
  unfold ensureKey
  split
  · assumption
  · exact hasKey_dinsert_of_hasKey d k k' v h

/-- C8 (amended): every document returned by `read_json` contains
`version`, `next_id` and `servers` (filled in when absent), and a
missing file yields the full default document; `last_cleanup` alone is
not filled in. -/
theorem C8_document_shape (st : List (String × Server)) (inp : ReadInput) :
    (∀ doc st2, read_json st inp = (.ok doc, st2) →
      hasKey doc "version" = true ∧ hasKey doc "next_id" = true ∧
        hasKey doc "servers" = true) ∧
    read_json st .missing = (.ok (defaultDoc st), st) := by
  constructor
  · have hens : ∀ d : List (String × JVal),
        hasKey (ensure_fields d) "version" = true ∧
          hasKey (ensure_fields d) "next_id" = true ∧
          hasKey (ensure_fields d) "servers" = true := by
      intro d
      refine ⟨?_, ?_, hasKey_ensureKey_self _ _ _⟩
      · exact hasKey_ensureKey_of _ _ _ _
          (hasKey_ensureKey_of _ _ _ _ (hasKey_ensureKey_self _ _ _))
      · exact hasKey_ensureKey_of _ _ _ _ (hasKey_ensureKey_self _ _ _)
    intro doc st2 h
    match inp with
    | .missing =>
      have hdoc : doc = defaultDoc st := by
        cases h
        rfl
      rw [hdoc]
      refine ⟨rfl, rfl, rfl⟩
    | .ioError => cases h
    | .parseError => cases h
    | .parsed d =>
      simp only [read_json] at h
      by_cases hold : is_old_format d
      · rw [if_pos hold] at h
        have hdoc : doc = ensure_fields (migrate_old_format st d).1 := by
          cases h
          rfl
        rw [hdoc]
        exact hens _
      · rw [if_neg hold] at h
        have hdoc : doc = ensure_fields d := by
          cases h
          rfl
        rw [hdoc]
        exact hens _
  · rfl

/-- C1: ids are unique monotonically increasing integers rendered as
strings — a successful `add_data` stores the new record under the key
`str(next_id)` with the same integer in its `id` field and increments
`next_id` by exactly one, and `migrate_old_format` (on the pristine
default template) numbers the n migrated records consecutively
`"1"`..`"n"` and sets `next_id` to n+1. -/
theorem C1_id_assignment (data : Config) (name host : String) (now : Int)
    (hfresh : get_server_by_name data.servers name = none) :
    (∀ d : List (String × JVal),
      migrate_old_format [] d =
        ([("version", JVal.str CURRENT_VERSION),
          ("next_id", JVal.int ((recordsOf d).length + 1)),
          ("servers", JVal.serversObj (numberFrom 1 (recordsOf d))),
          ("last_cleanup", JVal.null)],
         numberFrom 1 (recordsOf d))) ∧
    add_data (.ok data) name host now true =
      (true, .written { data with
        next_id := data.next_id + 1
        servers := dinsert (pyStr data.next_id) (newServer data.next_id name host now)
          data.servers }) ∧
    lookupKey (dinsert (pyStr data.next_id) (newServer data.next_id name host now) data.servers)
        (pyStr data.next_id) = some (newServer data.next_id name host now) ∧
    (newServer data.next_id name host now).id = some data.next_id := by
  refine ⟨?_, by simp [add_data, hfresh], lookupKey_dinsert_self _ _ _, rfl⟩
  intro d
  unfold migrate_old_format
  rw [migrateLoop_eq d [] 1 (by simp)]
  simp [Nat.add_comm]

theorem C1_id_assignment_witness :
    get_server_by_name w1cfg.servers "a" = none ∧
    migrate_old_format [] w1doc =
      ([("version", JVal.str CURRENT_VERSION),
        ("next_id", JVal.int ((recordsOf w1doc).length + 1)),
        ("servers", JVal.serversObj (numberFrom 1 (recordsOf w1doc))),
        ("last_cleanup", JVal.null)],
       numberFrom 1 (recordsOf w1doc)) ∧
    add_data (.ok w1cfg) "a" "h" 5 true =
      (true, .written { w1cfg with
        next_id := w1cfg.next_id + 1
        servers := dinsert (pyStr w1cfg.next_id) (newServer w1cfg.next_id "a" "h" 5)
          w1cfg.servers }) :=
  ⟨by decide, (C1_id_assignment w1cfg "a" "h" 5 (by decide)).1 w1doc,
   (C1_id_assignment w1cfg "a" "h" 5 (by decide)).2.1⟩

/-- C2 counterexample: the claim fails for an empty `new_name`.  The
conflict check `if new_name and new_name != server_info["name"]` treats
the empty string as falsy and is skipped, so renaming server 2 to `""`
— the name of server 1 — returns `True` and writes a configuration
with a duplicated name, instead of returning `False` unchanged. -/
theorem C2_counterexample :
    keysUnique c2cfg.servers ∧ namesUnique c2cfg.servers ∧
    resolveServer c2cfg.servers "2" = some ("2", c2srvB) ∧
    ("1", c2srvA) ∈ c2cfg.servers ∧ c2srvA.name = "" ∧
    ("1", c2srvA) ≠ ("2", c2srvB) ∧
    update_data (.ok c2cfg) "2" (some "") none true ≠ (false, .unchanged) ∧
    update_data (.ok c2cfg) "2" (some "") none true =
      (true, .written { c2cfg with
        servers := [("1", c2srvA), ("2", { c2srvB with name := "" })] }) := by
  decide

/-- C2 (amended): in a configuration with unique names, `add_data` with
an already-present name returns `False` leaving the store unchanged,
and `update_data` with a non-empty `new_name` equal to the name of a
different server returns `False` leaving the store unchanged (an empty
`new_name` escapes the conflict check, see the counterexample). -/
theorem C2_name_uniqueness (data : Config) (hk : keysUnique data.servers)
    (hn : namesUnique data.servers) :
    (∀ name host now w q, q ∈ data.servers → q.2.name = name →
      add_data (.ok data) name host now w = (false, .unchanged)) ∧
    (∀ ident nn nh w sid info q,
      resolveServer data.servers ident = some (sid, info) →
      q ∈ data.servers → q.2.name = nn → q ≠ (sid, info) → nn ≠ "" →
      update_data (.ok data) ident (some nn) nh w = (false, .unchanged)) := by
  constructor
  · intro name host now w q hq hqname
    obtain ⟨r, hr, _, _⟩ := get_server_by_name_of_mem hq hqname
    simp [add_data, hr]
  · intro ident nn nh w sid info q hres hq hqname hqne hnn
    have hmemres : (sid, info) ∈ data.servers := resolveServer_mem hres
    have hinfoname : info.name ≠ nn := by
      intro he
      exact hqne (List.inj_on_of_nodup_map hn hq hmemres (by rw [hqname, he]))
    obtain ⟨r, hr, hrmem, hrname⟩ := get_server_by_name_of_mem hq hqname
    have hrne : r ≠ (sid, info) := by
      intro he
      rw [he] at hrname
      exact hinfoname hrname
    have hr1 : r.1 ≠ sid := by
      intro he
      exact hrne (List.inj_on_of_nodup_map hk hrmem hmemres (by simpa using he))
    simp [update_data, hres, hr, hnn, Ne.symm hinfoname, hr1]

theorem C2_name_uniqueness_witness :
    (keysUnique c2cfg.servers ∧ namesUnique c2cfg.servers ∧
      ("2", c2srvB) ∈ c2cfg.servers ∧ c2srvB.name = "x" ∧
      resolveServer c2cfg.servers "1" = some ("1", c2srvA) ∧
      ("2", c2srvB) ≠ ("1", c2srvA) ∧ "x" ≠ "") ∧
    add_data (.ok c2cfg) "x" "hh" 7 true = (false, .unchanged) ∧
    update_data (.ok c2cfg) "1" (some "x") none true = (false, .unchanged) :=
  ⟨by decide,
   (C2_name_uniqueness c2cfg (by decide) (by decide)).1 "x" "hh" 7 true ("2", c2srvB)
     (by decide) (by decide),
   (C2_name_uniqueness c2cfg (by decide) (by decide)).2 "1" "x" none true "1" c2srvA
     ("2", c2srvB) (by decide) (by decide) (by decide) (by decide) (by decide)⟩

/-- C3: `del_data` deletes by id key or, failing that, by name: it
returns `True` and removes exactly the matching record when the
identifier is an existing id key or an existing name, and returns
`False` leaving the store unchanged when it matches neither. -/
theorem C3_delete (data : Config) (ident : String) (hk : keysUnique data.servers) :
    (hasKey data.servers ident = true →
      del_data (.ok data) ident true =
        (true, .written { data with servers := derase ident data.servers }) ∧
      lookupKey (derase ident data.servers) ident = none ∧
      (∀ k, k ≠ ident → lookupKey (derase ident data.servers) k = lookupKey data.servers k)) ∧
    (hasKey data.servers ident = false →
      ∀ sid info, get_server_by_name data.servers ident = some (sid, info) →
        del_data (.ok data) ident true =
          (true, .written { data with servers := derase sid data.servers }) ∧
        info.name = ident ∧
        lookupKey (derase sid data.servers) sid = none ∧
        (∀ k, k ≠ sid → lookupKey (derase sid data.servers) k = lookupKey data.servers k)) ∧
    (hasKey data.servers ident = false →
      get_server_by_name data.servers ident = none →
      del_data (.ok data) ident true = (false, .unchanged)) := by
  refine ⟨?_, ?_, ?_⟩
  · intro h
    exact ⟨by simp [del_data, h], lookupKey_derase_self _ _ hk,
      fun k hkne => lookupKey_derase_ne _ _ _ hkne⟩
  · intro h sid info hname
    exact ⟨by simp [del_data, h, hname], by simpa using List.find?_some hname,
      lookupKey_derase_self _ _ hk, fun k hkne => lookupKey_derase_ne _ _ _ hkne⟩
  · intro h hname
    simp [del_data, h, hname]

theorem C3_delete_witness :
    keysUnique c3cfg.servers ∧ hasKey c3cfg.servers "1" = true ∧
    del_data (.ok c3cfg) "1" true =
      (true, .written { c3cfg with servers := derase "1" c3cfg.servers }) ∧
    (hasKey c3cfg.servers "b" = false →
      get_server_by_name c3cfg.servers "b" = some ("2", c3srvB) →
      del_data (.ok c3cfg) "b" true =
        (true, .written { c3cfg with servers := derase "2" c3cfg.servers }) ∧
      c3srvB.name = "b" ∧
      lookupKey (derase "2" c3cfg.servers) "2" = none ∧
      (∀ k, k ≠ "2" → lookupKey (derase "2" c3cfg.servers) k = lookupKey c3cfg.servers k)) :=
  ⟨by decide, by decide, ((C3_delete c3cfg "1" (by decide)).1 (by decide)).1,
   fun h1 h2 => (C3_delete c3cfg "b" (by decide)).2.1 h1 "2" c3srvB h2⟩

/-- C5: `auto_cleanup_servers` deletes exactly the servers whose
`last_success_time` (a missing field counting as 0) is strictly below
`now - 10 days`, returns their summaries in order, leaves every other
record unchanged, and sets `last_cleanup` to the current time if and
only if at least one server was deleted. -/
theorem C5_auto_cleanup (data : Config) (now : Int) (hk : keysUnique data.servers) :
    (auto_cleanup_servers (.ok data) now true).1 =
      (data.servers.filter (fun p =>
        decide (p.2.last_success_time.getD 0 < now - AUTO_CLEANUP_DAYS * 24 * 3600))).map
        cleanupSummary ∧
    (data.servers.filter (fun p =>
        decide (p.2.last_success_time.getD 0 < now - AUTO_CLEANUP_DAYS * 24 * 3600)) = [] →
      (auto_cleanup_servers (.ok data) now true).2 = .unchanged) ∧
    (data.servers.filter (fun p =>
        decide (p.2.last_success_time.getD 0 < now - AUTO_CLEANUP_DAYS * 24 * 3600)) ≠ [] →
      (auto_cleanup_servers (.ok data) now true).2 =
        .written { data with
          servers := data.servers.filter (fun p =>
            !decide (p.2.last_success_time.getD 0 < now - AUTO_CLEANUP_DAYS * 24 * 3600))
          last_cleanup := some now }) := by
  by_cases hemp : data.servers.isEmpty
  · have hnil : data.servers = [] := by
      cases hd : data.servers
      · rfl
      · rw [hd] at hemp
        simp [List.isEmpty] at hemp
    refine ⟨?_, ?_, ?_⟩
    · simp [auto_cleanup_servers, hemp, hnil]
    · intro _
      simp [auto_cleanup_servers, hemp]
    · intro hne
      exact absurd (by simp [hnil]) hne
  · have hfold := foldl_derase_filter
      (fun p : String × Server =>
        decide (p.2.last_success_time.getD 0 < now - AUTO_CLEANUP_DAYS * 24 * 3600))
      data.servers hk
    by_cases hdel : data.servers.filter (fun p =>
        decide (p.2.last_success_time.getD 0 < now - AUTO_CLEANUP_DAYS * 24 * 3600)) = []
    · refine ⟨?_, fun _ => ?_, fun hne => absurd hdel hne⟩
      · simp [auto_cleanup_servers, hemp, hdel]
      · simp [auto_cleanup_servers, hemp, hdel]
    · have hmapne : ((data.servers.filter (fun p =>
          decide (p.2.last_success_time.getD 0 < now - AUTO_CLEANUP_DAYS * 24 * 3600))).map
            cleanupSummary).isEmpty = false := by
        rcases hd : data.servers.filter (fun p =>
            decide (p.2.last_success_time.getD 0 < now - AUTO_CLEANUP_DAYS * 24 * 3600)) with
          _ | ⟨q, rest⟩
        · exact absurd hd hdel
        · rw [hd]
          rfl
      refine ⟨?_, fun h => absurd h hdel, fun _ => ?_⟩
      · simp [auto_cleanup_servers, hemp, hmapne]
      · simp only [auto_cleanup_servers, hemp, Bool.false_eq_true, if_false, hmapne, if_true]
        rw [hfold]

theorem C5_auto_cleanup_witness :
    keysUnique c5cfg.servers ∧
    (auto_cleanup_servers (.ok c5cfg) 2000000 true).1 =
      (c5cfg.servers.filter (fun p =>
        decide (p.2.last_success_time.getD 0 < 2000000 - AUTO_CLEANUP_DAYS * 24 * 3600))).map
        cleanupSummary ∧
    (c5cfg.servers.filter (fun p =>
        decide (p.2.last_success_time.getD 0 < 2000000 - AUTO_CLEANUP_DAYS * 24 * 3600)) ≠ [] →
      (auto_cleanup_servers (.ok c5cfg) 2000000 true).2 =
        .written { c5cfg with
          servers := c5cfg.servers.filter (fun p =>
            !decide (p.2.last_success_time.getD 0 < 2000000 - AUTO_CLEANUP_DAYS * 24 * 3600))
          last_cleanup := some 2000000 }) :=
  ⟨by decide, (C5_auto_cleanup c5cfg 2000000 (by decide)).1,
   (C5_auto_cleanup c5cfg 2000000 (by decide)).2.2⟩

/-- C7: for a server matched by id key or name, `update_server_status`
with `success=True` sets `last_success_time` to the current time and
resets `failed_count` to 0; with `success=False` it sets
`last_failed_time` to the current time and increments `failed_count`
by exactly one (missing counting as 0); `id`, `name`, `host`,
`created_time` and all other servers are unchanged and it returns
`True`; with no match it returns `False`. -/
theorem C7_status_update (data : Config) (ident : String) (success : Bool) (now : Int) :
    (∀ sid info, resolveServer data.servers ident = some (sid, info) →
      update_server_status (.ok data) ident success now true =
        (true, .written { data with
          servers := dinsert sid (statusUpdate success now info) data.servers }) ∧
      (success = true → statusUpdate success now info =
        { info with last_success_time := some now, failed_count := some 0 }) ∧
      (success = false → statusUpdate success now info =
        { info with
          last_failed_time := some now
          failed_count := some (info.failed_count.getD 0 + 1) }) ∧
      (statusUpdate success now info).id = info.id ∧
      (statusUpdate success now info).name = info.name ∧
      (statusUpdate success now info).host = info.host ∧
      (statusUpdate success now info).created_time = info.created_time ∧
      lookupKey (dinsert sid (statusUpdate success now info) data.servers) sid =
        some (statusUpdate success now info) ∧
      (∀ k, k ≠ sid →
        lookupKey (dinsert sid (statusUpdate success now info) data.servers) k =
          lookupKey data.servers k)) ∧
    (resolveServer data.servers ident = none →
      update_server_status (.ok data) ident success now true = (false, .unchanged)) := by
  constructor
  · intro sid info hres
    refine ⟨by simp [update_server_status, hres], ?_, ?_, ?_, ?_, ?_, ?_,
      lookupKey_dinsert_self _ _ _, fun k hkne => lookupKey_dinsert_ne _ _ _ _ hkne⟩
    · intro h
      simp [statusUpdate, h]
    · intro h
      simp [statusUpdate, h]
    · cases success <;> simp [statusUpdate]
    · cases success <;> simp [statusUpdate]
    · cases success <;> simp [statusUpdate]
    · cases success <;> simp [statusUpdate]
  · intro h
    simp [update_server_status, h]

theorem C7_status_update_witness :
    resolveServer c7cfg.servers "a" = some ("1", c7srv) ∧
    update_server_status (.ok c7cfg) "a" false 99 true =
      (true, .written { c7cfg with
        servers := dinsert "1" (statusUpdate false 99 c7srv) c7cfg.servers }) ∧
    (false = false → statusUpdate false 99 c7srv =
      { c7srv with
        last_failed_time := some 99
        failed_count := some (c7srv.failed_count.getD 0 + 1) }) :=
  ⟨by decide, ((C7_status_update c7cfg "a" false 99).1 "1" c7srv (by decide)).1,
   ((C7_status_update c7cfg "a" false 99).1 "1" c7srv (by decide)).2.2.1⟩

/-- C10: id lookup takes precedence over name lookup — when the
identifier is both an existing id key and the name of a different
server, `del_data`, `update_data`, `update_server_status` and
`get_server_info` all act on the server stored under that id key. -/
theorem C10_id_precedence (data : Config) (ident : String) (s : Server)
    (hid : lookupKey data.servers ident = some s)
    (_hname : ∃ q ∈ data.servers, q.2.name = ident ∧ q.2 ≠ s) :
    resolveServer data.servers ident = some (ident, s) ∧
    get_server_info (.ok data) ident = some s ∧
    del_data (.ok data) ident true =
      (true, .written { data with servers := derase ident data.servers }) ∧
    (∀ h0, update_data (.ok data) ident none (some h0) true =
      (true, .written { data with
        servers := dinsert ident { s with host := h0 } data.servers })) ∧
    (∀ success now, update_server_status (.ok data) ident success now true =
      (true, .written { data with
        servers := dinsert ident (statusUpdate success now s) data.servers })) := by
  have hres : resolveServer data.servers ident = some (ident, s) :=
    resolveServer_of_lookupKey hid
  have hfind := find?_eq_of_lookupKey hid
  have hkey : hasKey data.servers ident = true := by
    rw [hasKey_eq_isSome_lookupKey, hid]
    rfl
  refine ⟨hres, ?_, by simp [del_data, hkey], ?_, ?_⟩
  · simp [get_server_info, hfind]
  · intro h0
    simp [update_data, hres]
  · intro success now
    simp [update_server_status, hres]

theorem C10_id_precedence_witness :
    (lookupKey c10cfg.servers "1" = some c10srvA ∧
      ("2", c10srvB) ∈ c10cfg.servers ∧ c10srvB.name = "1" ∧ c10srvB ≠ c10srvA) ∧
    get_server_info (.ok c10cfg) "1" = some c10srvA ∧
    del_data (.ok c10cfg) "1" true =
      (true, .written { c10cfg with servers := derase "1" c10cfg.servers }) :=
  ⟨by refine ⟨by decide, by decide, by decide, by decide⟩,
   (C10_id_precedence c10cfg "1" c10srvA (by decide)
     ⟨("2", c10srvB), by decide, by decide, by decide⟩).2.1,
   (C10_id_precedence c10cfg "1" c10srvA (by decide)
     ⟨("2", c10srvB), by decide, by decide, by decide⟩).2.2.1⟩

theorem C8_document_shape_witness :
    read_json [] (ReadInput.parsed w8doc) = (.ok w8out, []) ∧
    (hasKey w8out "version" = true ∧ hasKey w8out "next_id" = true ∧
      hasKey w8out "servers" = true) :=
  ⟨by decide, (C8_document_shape [] (.parsed w8doc)).1 w8out [] (by decide)⟩

theorem C9_mc_resolution_witness :
    List.find? (fun q => q.2.name == "a" || q.1 == "a") c9servers = some ("1", c9srv) ∧
    mcResolveHost c9servers "a" = ("1", c9srv).2.host ∧
    c9fetch (mcResolveHost c9servers "a") = some "img" ∧
    mcgetter c9servers "a" c9fetch = .image "img" :=
  ⟨by decide, (C9_mc_resolution c9servers "a" c9fetch).2.1 ("1", c9srv) (by decide),
   by decide, (C9_mc_resolution c9servers "a" c9fetch).2.2.2.1 "img" (by decide)⟩
